import Mathlib

/-!
Verification development for the TrackLightNews ingestion/dedup/sync pipeline.

The Python source (src/app.py, src/data_manager.py, src/utils.py,
src/sheet_manager.py, src/email_manager.py) is shallowly embedded below:
Python values are modelled by `PyVal`, Python dicts by insertion-ordered
association lists (`PyDict`), the `DataManager` state by `DMState`, and the
email ingestion cycle of `maybe_auto_check_email` by `emailCycle`.
-/

/-- Model of a Python value as it occurs in this code base
(JSON-shaped data: `None`, booleans, integers, strings, lists, dicts). -/
inductive PyVal where
  | none : PyVal
  | bool (b : Bool) : PyVal
  | int (n : Int) : PyVal
  | str (s : String) : PyVal
  | list (xs : List PyVal) : PyVal
  | dict (d : List (String × PyVal)) : PyVal

/-- Python `==` between a stored value and another value, restricted to the
comparisons the source actually performs: every comparison in the embedded
code has at least one side that is an atom (`None`/bool/int/str), and Python's
`==` across different atom types is `False` (except `bool`/`int`, where
`True == 1`).  Composite-vs-composite comparisons never occur (set membership
of unhashable values raises in Python, modelled by the callers' guards), so
they are mapped to `false` here. -/
def pyAtomEq : PyVal → PyVal → Bool
  | PyVal.none, PyVal.none => true
  | PyVal.bool a, PyVal.bool b => a == b
  | PyVal.int a, PyVal.int b => a == b
  | PyVal.str a, PyVal.str b => a == b
  | PyVal.bool a, PyVal.int b => (if a then (1 : Int) else 0) == b
  | PyVal.int a, PyVal.bool b => a == (if b then (1 : Int) else 0)
  | _, _ => false

/-- Hashability of a Python value: atoms are hashable, lists/dicts are not. -/
def isHashable : PyVal → Bool
  | PyVal.list _ => false
  | PyVal.dict _ => false
  | _ => true

/-- A Python dict with string keys, modelled as an insertion-ordered
association list (first binding wins on lookup, as keys are unique in
Python dicts). -/
abbrev PyDict := List (String × PyVal)

/-- `d.get(k)`: first binding for `k`, or `none` (Python `None`) if absent. -/
def dget : PyDict → String → Option PyVal
  | [], _ => Option.none
  | (k', v) :: t, k => if k' = k then some v else dget t k

/-- `d[k] = v`: replace the first binding for `k` in place, else append
(Python dict insertion order). -/
def dset : PyDict → String → PyVal → PyDict
  | [], k, v => [(k, v)]
  | (k', v') :: t, k, v => if k' = k then (k, v) :: t else (k', v') :: dset t k v

/-- `k in d`. -/
def dmem (d : PyDict) (k : String) : Bool := (dget d k).isSome

/-- Python truthiness of a `PyVal`. -/
def pyTruthy : PyVal → Bool
  | PyVal.none => false
  | PyVal.bool b => b
  | PyVal.int n => !(n == 0)
  | PyVal.str s => !(s == "")
  | PyVal.list xs => !xs.isEmpty
  | PyVal.dict d => !d.isEmpty

/-- Python `str.strip()` on a character list: drop leading and trailing
whitespace. -/
def pyStripList (l : List Char) : List Char :=
  ((l.dropWhile Char.isWhitespace).reverse.dropWhile Char.isWhitespace).reverse

/-- Python `str.strip()`. -/
def pyStrip (s : String) : String := ⟨pyStripList s.data⟩

/-- Python `str.startswith(p)`. -/
def pyStartsWith (s p : String) : Bool := p.data.isPrefixOf s.data

/-- Substring test on character lists (Python `in` on strings). -/
def hasSubstrList : List Char → List Char → Bool
  | [], p => p.isEmpty
  | c :: t, p => p.isPrefixOf (c :: t) || hasSubstrList t p

/-- Python `p in s` for strings. -/
def pyContains (s p : String) : Bool := hasSubstrList s.data p.data

/-- Python `str.lower()` (ASCII case, which is all the source compares). -/
def pyLower (s : String) : String := ⟨s.data.map Char.toLower⟩

/-- Python `str.rstrip('/')` on a character list: drop ALL trailing `'/'`
characters. -/
def rstripSlashList (l : List Char) : List Char :=
  (l.reverse.dropWhile (fun c => c == '/')).reverse

/-- `u.strip().rstrip('/')` — the URL canonicalization used for
set-membership comparisons in `DataManager.set_backend`
(src/data_manager.py lines 55 and 59). -/
def normalize_url_str (s : String) : String := ⟨rstripSlashList (pyStripList s.data)⟩

/-- The spec's `Normalize(url)` interface over an optional URL: the code
reaches `u.strip().rstrip('/')` only under truthiness guards (`if u`,
`a.get("url", "")`), which treat a missing/None URL as the empty string. -/
def normalize_url : Option String → String
  | Option.none => ""
  | some s => normalize_url_str s

example : normalize_url (some "https://x.com/a/ ") = "https://x.com/a" := by decide
example : normalize_url (some "https://x.com/a//") = "https://x.com/a" := by decide
example : pyContains (pyLower "https://x.com/FavIcon.ico") "favicon" = true := by decide

/-! ## A model of Python literal parsing

`normalize_analysis` (src/utils.py) tries `json.loads` and then
`ast.literal_eval` on string-valued fields, and `maybe_auto_check_email`
(src/app.py line 381) runs `json.loads` on the analyzer output.  Both stdlib
facilities are external to the repository; they are modelled by one
fuel-bounded recursive-descent reader of JSON/Python literals
(`null/None/true/True/false/False`, integers, single- or double-quoted
strings without escapes, arrays, and string-keyed objects).  `Option.none`
means the parse attempt raised.  The theorems below depend only on the
*shape* of a successful result, never on parser completeness. -/

/-- Drop leading whitespace. -/
def skipWs (l : List Char) : List Char := l.dropWhile Char.isWhitespace

/-- Read characters of a quoted string until the closing quote `q`. -/
def readQuoted (q : Char) : List Char → Option (List Char × List Char)
  | [] => Option.none
  | c :: cs =>
    if c = q then some ([], cs)
    else if c = '\\' then Option.none
    else match readQuoted q cs with
      | some (s, rest) => some (c :: s, rest)
      | Option.none => Option.none

/-- Read a non-empty digit run as a natural number. -/
def readDigits (l : List Char) : Option (Nat × List Char) :=
  let ds := l.takeWhile Char.isDigit
  if ds.isEmpty then Option.none
  else some (ds.foldl (fun n c => n * 10 + (c.toNat - 48)) 0, l.dropWhile Char.isDigit)

mutual

/-- Parse one literal value. -/
def parseVal : Nat → List Char → Option (PyVal × List Char)
  | 0, _ => Option.none
  | f + 1, cs =>
    match skipWs cs with
    | [] => Option.none
    | c :: rest =>
      if c = '"' ∨ c = '\'' then
        match readQuoted c rest with
        | some (s, r) => some (PyVal.str ⟨s⟩, r)
        | Option.none => Option.none
      else if c = '[' then
        match skipWs rest with
        | ']' :: r => some (PyVal.list [], r)
        | r => match parseItems f r with
          | some (xs, r') => some (PyVal.list xs, r')
          | Option.none => Option.none
      else if c = '{' then
        match skipWs rest with
        | '}' :: r => some (PyVal.dict [], r)
        | r => match parseEntries f r with
          | some (es, r') => some (PyVal.dict es, r')
          | Option.none => Option.none
      else if c = '-' then
        match readDigits rest with
        | some (n, r) => some (PyVal.int (-(n : Int)), r)
        | Option.none => Option.none
      else if c.isDigit then
        match readDigits (c :: rest) with
        | some (n, r) => some (PyVal.int (n : Int), r)
        | Option.none => Option.none
      else if "null".data.isPrefixOf (c :: rest) then some (PyVal.none, (c :: rest).drop 4)
      else if "None".data.isPrefixOf (c :: rest) then some (PyVal.none, (c :: rest).drop 4)
      else if "true".data.isPrefixOf (c :: rest) then some (PyVal.bool true, (c :: rest).drop 4)
      else if "True".data.isPrefixOf (c :: rest) then some (PyVal.bool true, (c :: rest).drop 4)
      else if "false".data.isPrefixOf (c :: rest) then some (PyVal.bool false, (c :: rest).drop 5)
      else if "False".data.isPrefixOf (c :: rest) then some (PyVal.bool false, (c :: rest).drop 5)
      else Option.none

/-- Parse comma-separated array items up to and including `]`. -/
def parseItems : Nat → List Char → Option (List PyVal × List Char)
  | 0, _ => Option.none
  | f + 1, cs =>
    match parseVal f cs with
    | Option.none => Option.none
    | some (v, rest) =>
      match skipWs rest with
      | ',' :: r =>
        match parseItems f r with
        | some (xs, r') => some (v :: xs, r')
        | Option.none => Option.none
      | ']' :: r => some ([v], r)
      | _ => Option.none

/-- Parse comma-separated `"key": value` object entries up to and
including `}`. -/
def parseEntries : Nat → List Char → Option (List (String × PyVal) × List Char)
  | 0, _ => Option.none
  | f + 1, cs =>
    match skipWs cs with
    | c :: rest =>
      if c = '"' ∨ c = '\'' then
        match readQuoted c rest with
        | some (k, r) =>
          match skipWs r with
          | ':' :: r2 =>
            match parseVal f r2 with
            | some (v, r3) =>
              match skipWs r3 with
              | ',' :: r4 =>
                match parseEntries f r4 with
                | some (es, r5) => some ((⟨k⟩, v) :: es, r5)
                | Option.none => Option.none
              | '}' :: r4 => some ([(⟨k⟩, v)], r4)
              | _ => Option.none
            | Option.none => Option.none
          | _ => Option.none
        | Option.none => Option.none
      else Option.none
    | [] => Option.none

end

/-- Model of `json.loads` / `ast.literal_eval` on a whole string: the parse
must consume everything but trailing whitespace. -/
def parseLiteral (s : String) : Option PyVal :=
  match parseVal (2 * s.length + 8) s.data with
  | some (v, rest) => if (skipWs rest).isEmpty then some v else Option.none
  | Option.none => Option.none

example : parseLiteral "\x7b\"a\": 1\x7d" = some (PyVal.dict [("a", PyVal.int 1)]) := rfl
example : parseLiteral "T" = Option.none := rfl
example : parseLiteral "[\"x\", 2]" = some (PyVal.list [PyVal.str "x", PyVal.int 2]) := rfl
example : parseLiteral "hello world" = Option.none := rfl

/-! ## src/utils.py — `normalize_analysis` -/

/-- The `list_fields` list of `normalize_analysis` (src/utils.py lines 8-15),
in source order.  Note that it contains `tl_dr` and does NOT contain
`allegations`, `current_situation` or `next_steps`. -/
def list_fields : List String :=
  ["full_summary_bullets", "people_mentioned", "prevention_strategies",
   "discovery_questions", "organizations_involved", "tl_dr"]

/-- One iteration of the `for key in list_fields` loop of
`normalize_analysis` (src/utils.py lines 16-36): a string value is parsed
(JSON, then Python literal); a list or dict parse replaces it, any other
non-empty string is wrapped as a one-element list, an empty string becomes
`[]`; a `None` value — which is also what `data.get(key)` yields for an
absent key, so the key is then inserted — becomes `[]`. -/
def normField (d : PyDict) (key : String) : PyDict :=
  match dget d key with
  | some (PyVal.str v) =>
    let s := pyStrip v
    match parseLiteral s with
    | some (PyVal.list xs) => dset d key (PyVal.list xs)
    | some (PyVal.dict m) => dset d key (PyVal.dict m)
    | _ => if s ≠ "" then dset d key (PyVal.list [PyVal.str s]) else dset d key (PyVal.list [])
  | some PyVal.none => dset d key (PyVal.list [])
  | Option.none => dset d key (PyVal.list [])
  | some _ => d

/-- `normalize_analysis` (src/utils.py lines 4-41): on a dict, run the
list-field loop, then the legacy `summary`→`tl_dr` alias copy guarded by
`"tl_dr" not in data`; any non-dict input is returned unchanged (and the
`try/except` wrapper returns the input unchanged on error, which the total
model never needs). -/
def normalize_analysis : PyVal → PyVal
  | PyVal.dict d =>
    let d1 := list_fields.foldl normField d
    if !dmem d1 "tl_dr" && dmem d1 "summary" then
      PyVal.dict (dset d1 "tl_dr" ((dget d1 "summary").getD PyVal.none))
    else PyVal.dict d1
  | v => v

example :
    normalize_analysis (PyVal.dict [("summary", PyVal.str "S")]) =
      PyVal.dict [("summary", PyVal.str "S"), ("full_summary_bullets", PyVal.list []),
        ("people_mentioned", PyVal.list []), ("prevention_strategies", PyVal.list []),
        ("discovery_questions", PyVal.list []), ("organizations_involved", PyVal.list []),
        ("tl_dr", PyVal.list [])] := rfl

example :
    dget (match normalize_analysis (PyVal.dict [("tl_dr", PyVal.str "T"), ("summary", PyVal.str "S")]) with
      | PyVal.dict d => d
      | _ => []) "tl_dr" = some (PyVal.list [PyVal.str "T"]) := rfl

/-! ## src/data_manager.py — `DataManager` -/

/-- The observable `DataManager` state: the in-memory article cache
(`articles_cache`, mirrored to disk/remote on `_save`, which changes no
observable state) and the preferences document (`preferences.json`). -/
structure DMState where
  articles : List PyDict
  prefs : PyDict

/-- `article["id"] == article_id` for the update/delete loops.  A record
without an `id` key raises `KeyError` in Python; such records never occur
(every saved record passes `_prepare_article`), and the model treats them as
non-matching. -/
def idMatches (a : PyDict) (iid : String) : Bool :=
  match dget a "id" with
  | some v => pyAtomEq v (PyVal.str iid)
  | Option.none => false

/-- Replace the first list element satisfying `p` by its `f`-image
(the `for ... if ...: ...; break` pattern of `update_article` and
`delete_article`). -/
def updateFirst (p : PyDict → Bool) (f : PyDict → PyDict) : List PyDict → List PyDict
  | [] => []
  | a :: t => if p a then f a :: t else a :: updateFirst p f t

/-- `DataManager.get_all_articles` (src/data_manager.py lines 106-107). -/
def get_all_articles (st : DMState) : List PyDict := st.articles

/-- `DataManager.get_active_articles` (src/data_manager.py lines 109-110):
records whose `status` is not the string `"Deleted"`. -/
def get_active_articles (st : DMState) : List PyDict :=
  st.articles.filter (fun a =>
    match dget a "status" with
    | some v => !pyAtomEq v (PyVal.str "Deleted")
    | Option.none => true)

/-- `DataManager._prepare_article` (src/data_manager.py lines 127-137), with
the generated `uuid4` id and `datetime.now().isoformat()` timestamp supplied
by the caller's environment. -/
def prepare_article (a : PyDict) (iid ts : String) : PyDict :=
  let a := if dmem a "id" then a else dset a "id" (PyVal.str iid)
  let a := if dmem a "added_at" then a else dset a "added_at" (PyVal.str ts)
  let a := if dmem a "status" then a else dset a "status" (PyVal.str "Not Started")
  let a := if dmem a "notes" then a else dset a "notes" (PyVal.str "")
  if dmem a "last_error" then a else dset a "last_error" (PyVal.str "")

/-- `DataManager.save_article` (src/data_manager.py lines 112-117):
prepare and append. -/
def save_article (st : DMState) (a : PyDict) (iid ts : String) : DMState :=
  { st with articles := st.articles ++ [prepare_article a iid ts] }

/-- `article.update(updates)`: merge the update dict into the record,
in update order. -/
def applyUpdates (a : PyDict) (updates : PyDict) : PyDict :=
  updates.foldl (fun acc kv => dset acc kv.1 kv.2) a

/-- `DataManager.update_article` (src/data_manager.py lines 139-144):
merge `updates` into the first record matching the id; no-op when absent. -/
def update_article (st : DMState) (iid : String) (updates : PyDict) : DMState :=
  { st with articles := updateFirst (fun a => idMatches a iid) (fun a => applyUpdates a updates) st.articles }

/-- `DataManager.delete_article` (src/data_manager.py lines 146-161): hard
removal filters out every matching record; the default soft path sets
`status` to `"Deleted"` on the first match.  (The `if not found and hard`
fallback inside the soft branch is dead code, as `hard` is false there.) -/
def delete_article (st : DMState) (iid : String) (hard : Bool) : DMState :=
  if hard then { st with articles := st.articles.filter (fun a => !idMatches a iid) }
  else { st with articles := updateFirst (fun a => idMatches a iid) (fun a => dset a "status" (PyVal.str "Deleted")) st.articles }

/-- `prefs.get("deleted_urls", [])`, as the iterable the code then consumes.
An absent key yields `[]`; a non-list value makes the subsequent
`set(...)`/`in`/iteration raise in every call site that uses it (strings
aside, which no call site stores there), so the model signals it with
`Option.none` and the call sites map it to their observable abort state. -/
def deletedUrlsOf (prefs : PyDict) : Option (List PyVal) :=
  match dget prefs "deleted_urls" with
  | Option.none => some []
  | some (PyVal.list xs) => some xs
  | some _ => Option.none

/-- The blacklist append of `DataManager.purge_article` (src/data_manager.py
lines 170-175): `deleted = set(prefs.get("deleted_urls", []))`,
`deleted.add(url)`, `prefs["deleted_urls"] = list(deleted)`.  The model keeps
the stored order and appends when the value is missing; only membership in
the collection is observable downstream (it is consumed via `set(...)` and
`in`).  An unhashable or ill-typed collection raises in Python before any
state is written, so those cases leave the state unchanged. -/
def addUrlToDeleted (prefs : PyDict) (v : PyVal) : PyDict :=
  if !isHashable v then prefs
  else match deletedUrlsOf prefs with
    | some xs =>
      if xs.any (fun x => pyAtomEq x v) then prefs
      else dset prefs "deleted_urls" (PyVal.list (xs ++ [v]))
    | Option.none => prefs

/-- `DataManager.purge_article` (src/data_manager.py lines 163-179): find the
record by id; if it has a truthy `url`, append that RAW url value to the
`deleted_urls` blacklist; then remove every record with that id. -/
def purge_article (st : DMState) (iid : String) : DMState :=
  match st.articles.find? (fun a => idMatches a iid) with
  | Option.none => st
  | some a =>
    let prefs1 :=
      match dget a "url" with
      | some v => if pyTruthy v then addUrlToDeleted st.prefs v else st.prefs
      | Option.none => st.prefs
    { articles := st.articles.filter (fun b => !idMatches b iid), prefs := prefs1 }

/-- `DataManager.clear_all_articles` (src/data_manager.py lines 181-188). -/
def clear_all_articles (st : DMState) : DMState := { st with articles := [] }

/-! ## src/data_manager.py — `set_backend` merge (lines 40-104) -/

/-- The blacklist comprehension of `set_backend` (src/data_manager.py line
55): `set(u.strip().rstrip('/') for u in prefs-list if u)`.  Falsy entries
are skipped; a truthy non-string entry makes `.strip()` raise
(`Option.none`). -/
def blacklistNorm : List PyVal → Option (List String)
  | [] => some []
  | v :: t =>
    if !pyTruthy v then blacklistNorm t
    else match v with
      | PyVal.str s => (blacklistNorm t).map (fun r => normalize_url_str s :: r)
      | _ => Option.none

/-- `a.get("url", "").strip().rstrip('/')` for a remote record
(src/data_manager.py line 59): absent url defaults to `""`; a stored
non-string url (including `None`) makes `.strip()` raise. -/
def remoteUrlNorm (a : PyDict) : Option String :=
  match dget a "url" with
  | Option.none => some ""
  | some (PyVal.str s) => some (normalize_url_str s)
  | some _ => Option.none

/-- The remote filter of `set_backend` (src/data_manager.py lines 57-65):
drop every remote record whose normalized url is non-empty and in the
normalized blacklist. -/
def filterRemote (dels : List String) : List PyDict → Option (List PyDict)
  | [] => some []
  | a :: t =>
    match remoteUrlNorm a with
    | Option.none => Option.none
    | some url =>
      if url ≠ "" && dels.contains url then filterRemote dels t
      else (filterRemote dels t).map (fun r => a :: r)

/-- `a.get("id")` equality between two records, as used by the merge's
`local_art.get("id") not in remote_ids` test: two missing ids are both
`None` and compare equal; otherwise the stored values are compared (they
are hashable atoms wherever the merge runs — see `set_backend_cache`). -/
def idEqPy (ra la : PyDict) : Bool :=
  match dget ra "id", dget la "id" with
  | some rv, some lv => pyAtomEq rv lv
  | Option.none, Option.none => true
  | _, _ => false

/-- The resulting article cache of `DataManager.set_backend(load=True)`
(src/data_manager.py lines 48-104) as a function of the local cache, the
records returned by `load_db`, and the preferences.  With a non-empty remote:
filter remote against the blacklist, then keep all (filtered) remote records
and append the local records whose `id` is not among the remote ids.  With an
empty remote the cache is unchanged (the migration branch only pushes local
data out).  Any exception inside the `try` (ill-typed blacklist, non-string
remote url, unhashable id) is caught at line 103 before `articles_cache` is
reassigned, so the cache is unchanged in those cases. -/
def set_backend_cache (localArts remote : List PyDict) (prefs : PyDict) : List PyDict :=
  if remote.isEmpty then localArts
  else
    match deletedUrlsOf prefs with
    | Option.none => localArts
    | some dl =>
      match blacklistNorm dl with
      | Option.none => localArts
      | some dels =>
        match filterRemote dels remote with
        | Option.none => localArts
        | some filtered =>
          if (filtered.all (fun a => (dget a "id").elim true isHashable)
              && localArts.all (fun a => (dget a "id").elim true isHashable)) then
            filtered ++ localArts.filter (fun la => !(filtered.any (fun ra => idEqPy ra la)))
          else localArts

/-! ## src/app.py — `mark_url_deleted` and `maybe_auto_check_email` -/

/-- `mark_url_deleted` (src/app.py lines 277-285): append the RAW url string
to the `deleted_urls` preference list when it is not already present.  The
ill-typed-preferences case (`Option.none`) raises in Python and is
unreachable from `emailCycle`, whose own blacklist read aborts first. -/
def mark_url_deleted_prefs (prefs : PyDict) (url : String) : PyDict :=
  if url = "" then prefs
  else match deletedUrlsOf prefs with
    | some xs =>
      if xs.any (fun x => pyAtomEq x (PyVal.str url)) then prefs
      else dset prefs "deleted_urls" (PyVal.list (xs ++ [PyVal.str url]))
    | Option.none => prefs

/-- `mark_url_deleted` lifted to the `DataManager` state: only the
preferences change. -/
def mark_url_deleted (st : DMState) (url : String) : DMState :=
  { st with prefs := mark_url_deleted_prefs st.prefs url }

/-- The per-item external environment of one iteration of the ingestion loop
in `maybe_auto_check_email` (src/app.py lines 342-416): the string returned
by `scrape_article`, whether the 60-second budget was exceeded after the
scrape and after the analysis (`elapsed > 60`), the string returned by
`analyze_with_chatgpt`, and the creation timestamp. -/
structure ItemEnv where
  scrape : String
  slowScrape : Bool
  analyzeRes : String
  slowAnalyze : Bool
  addedAt : String

/-- The fixed sentinel test of src/app.py line 384. -/
def isBadLink : PyVal → Bool
  | PyVal.str s => pyStrip s == "Unknown - Bad Link?"
  | _ => false

/-- The `updates` dict of src/app.py lines 390-406, built from the
normalized analysis dict `d`. -/
def analysisUpdates (d : PyDict) : PyDict :=
  [("status", PyVal.str "Not Started"),
   ("article_title", (dget d "article_title").getD (PyVal.str "Unknown Title")),
   ("date", (dget d "date").getD PyVal.none),
   ("date_verification", (dget d "date_verification").getD PyVal.none),
   ("fraud_indicator", (dget d "fraud_indicator").getD PyVal.none),
   ("tl_dr", (dget d "tl_dr").getD ((dget d "summary").getD PyVal.none)),
   ("full_summary_bullets", (dget d "full_summary_bullets").getD PyVal.none),
   ("organizations_involved", (dget d "organizations_involved").getD PyVal.none),
   ("allegations", (dget d "allegations").getD PyVal.none),
   ("current_situation", (dget d "current_situation").getD PyVal.none),
   ("next_steps", (dget d "next_steps").getD PyVal.none),
   ("people_mentioned", (dget d "people_mentioned").getD PyVal.none),
   ("prevention_strategies", (dget d "prevention_strategies").getD ((dget d "prevention").getD PyVal.none)),
   ("discovery_questions", (dget d "discovery_questions").getD PyVal.none),
   ("last_error", PyVal.str "")]

/-- One non-favicon iteration of the ingestion loop of
`maybe_auto_check_email` (src/app.py lines 346-415): save the placeholder,
then follow the scrape/analyze outcome.  `dm.delete_article(...)` is the
SOFT delete (the `hard` parameter defaults to `False`). -/
def processOne (st : DMState) (url iid : String) (env : ItemEnv) (apiKey : Bool) : DMState :=
  let base : PyDict :=
    [("url", PyVal.str url), ("status", PyVal.str "In Process"),
     ("article_title", PyVal.str "Analyzing..."), ("added_at", PyVal.str env.addedAt),
     ("source", PyVal.str "email")]
  let st1 := save_article st base iid env.addedAt
  if env.slowScrape then delete_article st1 iid false
  else if pyStartsWith env.scrape "Error" then
    update_article st1 iid [("last_error", PyVal.str env.scrape), ("status", PyVal.str "Error")]
  else if apiKey then
    if env.slowAnalyze then delete_article st1 iid false
    else if pyStartsWith env.analyzeRes "Error" then
      update_article st1 iid [("last_error", PyVal.str env.analyzeRes), ("status", PyVal.str "Not Started")]
    else
      match parseLiteral env.analyzeRes with
      | Option.none => update_article st1 iid [("last_error", PyVal.str "JSON Parse Error")]
      | some raw =>
        match normalize_analysis raw with
        | PyVal.dict d =>
          let tl_val := (dget d "tl_dr").getD ((dget d "summary").getD (PyVal.str ""))
          if isBadLink tl_val then delete_article (mark_url_deleted st1 url) iid false
          else update_article st1 iid (analysisUpdates d)
        | _ => update_article st1 iid [("last_error", PyVal.str "JSON Parse Error")]
  else update_article st1 iid [("last_error", PyVal.str "No API Key")]

/-- `"favicon" in url.lower()` (src/app.py line 344). -/
def hasFavicon (url : String) : Bool := pyContains (pyLower url) "favicon"

/-- An article contributes its raw `url` value to the dedup set
`existing_urls = {a.get("url") for a in articles if a.get("url")}`
(src/app.py line 330), and a candidate link `l` is dropped when that set
contains the string `l` (raw comparison, no normalization). -/
def containsURL (arts : List PyDict) (l : String) : Bool :=
  arts.any (fun a =>
    match dget a "url" with
    | some v => pyTruthy v && pyAtomEq v (PyVal.str l)
    | Option.none => false)

/-- The `for i, url in enumerate(new_links)` loop (src/app.py lines
342-416): favicon candidates are skipped before any record is created; each
processed candidate consumes one generated uuid.  An exhausted id supply
stops the model (the supplies used by the theorems are long enough). -/
def runItems (st : DMState) (ids : List String) (env : String → ItemEnv) (apiKey : Bool) :
    List String → DMState
  | [] => st
  | url :: rest =>
    if hasFavicon url then runItems st ids env apiKey rest
    else match ids with
      | [] => st
      | iid :: ids' => runItems (processOne st url iid (env url) apiKey) ids' env apiKey rest

/-- The email ingestion cycle: `maybe_auto_check_email` (src/app.py lines
305-416) from the point where the connector has returned the candidate-link
list `links` (a non-error result).  `deleted_urls = set(prefs.get(...))`
aborts the whole cycle on an ill-typed preference (the surrounding
`try/except` catches it before any record is written); then candidates are
filtered against the RAW existing-url set and the RAW blacklist, and the
survivors are processed sequentially. -/
def emailCycle (st : DMState) (links : List String) (ids : List String)
    (env : String → ItemEnv) (apiKey : Bool) : DMState :=
  match deletedUrlsOf st.prefs with
  | Option.none => st
  | some dels =>
    let newLinks := links.filter (fun l =>
      !containsURL st.articles l && !(dels.any (fun x => pyAtomEq x (PyVal.str l))))
    if newLinks.isEmpty then st
    else runItems st ids env apiKey newLinks

/-- Number of stored records whose raw `url` field is the string `u`. -/
def countUrl (arts : List PyDict) (u : String) : Nat :=
  (arts.filter (fun a =>
    match dget a "url" with
    | some (PyVal.str s) => s == u
    | _ => false)).length

/-! ## src/sheet_manager.py — `get_new_urls` (lines 27-109) -/

/-- The stats/result record of `SheetManager.get_new_urls`: the new items
(url with 1-based row number), the 1-based row numbers marked `"Duplicate"`
in column B by the batch update, and the reported stats. -/
structure SheetScan where
  new_items : List (String × Nat)
  updates : List Nat
  total_rows : Nat
  valid_urls : Nat
  duplicates : Nat
  new : Nat

/-- The row loop of `get_new_urls` (src/sheet_manager.py lines 67-96),
started at 1-based row number `rowNum`: returns
(new items, duplicate-marked rows, valid-url count, duplicate count).
Column A is `row[0].strip()` (empty when the row is empty), column B is
`row[1].strip()`; rows whose url does not start with `"http"` are skipped
entirely, a non-empty status skips the row after counting it valid, a known
url is marked duplicate, anything else is new work. -/
def scanRows (existing : List String) : Nat → List (List String) →
    List (String × Nat) × List Nat × Nat × Nat
  | _, [] => ([], [], 0, 0)
  | rowNum, row :: rest =>
    let (ns, us, v, d) := scanRows existing (rowNum + 1) rest
    let url := pyStrip (row.getD 0 "")
    let status := pyStrip (row.getD 1 "")
    if !pyStartsWith url "http" then (ns, us, v, d)
    else if status ≠ "" then (ns, us, v + 1, d)
    else if existing.contains url then (ns, rowNum :: us, v + 1, d + 1)
    else ((url, rowNum) :: ns, us, v + 1, d)

/-- `SheetManager.get_new_urls` on the fetched cell values, as the pure
result of the happy path (authenticated, sheet found): the stats dict is
`{total_rows, valid_urls, duplicates, new}` and `new = len(new_items)`. -/
def get_new_urls (rows : List (List String)) (existing : List String) : SheetScan :=
  let (ns, us, v, d) := scanRows existing 1 rows
  ⟨ns, us, rows.length, v, d, ns.length⟩

example :
    get_new_urls [["https://a.com", ""], ["https://a.com", ""], ["https://b.com", "Done"]]
        ["https://a.com"] =
      ⟨[], [1, 2], 3, 3, 2, 0⟩ := rfl

/-! ## Association-list lemmas -/

theorem dget_dset_self (d : PyDict) (k : String) (v : PyVal) :
    dget (dset d k v) k = some v := by
  induction d with
  | nil => simp [dget, dset]
  | cons hd t ih =>
    obtain ⟨k', v'⟩ := hd
    by_cases h : k' = k
    · subst h; simp [dget, dset]
    · simp [dget, dset, h, ih]

theorem dget_dset_ne (d : PyDict) {k' k : String} (v : PyVal) (h : k' ≠ k) :
    dget (dset d k' v) k = dget d k := by
  induction d with
  | nil => simp [dget, dset, h]
  | cons hd t ih =>
    obtain ⟨k0, v0⟩ := hd
    by_cases h0 : k0 = k'
    · subst h0; simp [dget, dset, h]
    · simp only [dset, if_neg h0, dget]
      by_cases h1 : k0 = k
      · simp [h1]
      · simp [h1, ih]

/-! ## `normalize_analysis` structure lemmas -/

/-- The value a list field holds after one pass of the loop, as a function
of the value it held before. -/
def normValue : Option PyVal → Option PyVal
  | some (PyVal.str v) =>
    let s := pyStrip v
    match parseLiteral s with
    | some (PyVal.list xs) => some (PyVal.list xs)
    | some (PyVal.dict m) => some (PyVal.dict m)
    | _ => if s ≠ "" then some (PyVal.list [PyVal.str s]) else some (PyVal.list [])
  | some PyVal.none => some (PyVal.list [])
  | Option.none => some (PyVal.list [])
  | some v => some v

/-- Values the loop rewrites: strings and `None`. -/
def isStrOrNone : PyVal → Bool
  | PyVal.str _ => true
  | PyVal.none => true
  | _ => false

/-- A key whose value is present and neither a string nor `None`; such keys
are left untouched by the loop. -/
def goodAt (d : PyDict) (k : String) : Prop :=
  ∃ v, dget d k = some v ∧ isStrOrNone v = false

theorem normField_dget_self (d : PyDict) (k : String) :
    dget (normField d k) k = normValue (dget d k) := by
  unfold normField normValue
  cases h : dget d k with
  | none => simp [h, dget_dset_self]
  | some v =>
    cases v with
    | str s =>
      simp only
      cases hp : parseLiteral (pyStrip s) with
      | none => by_cases hs : pyStrip s = "" <;> simp [hp, hs, dget_dset_self]
      | some p =>
        cases p <;> by_cases hs : pyStrip s = "" <;> simp [hp, hs, dget_dset_self]
    | none => simp [dget_dset_self]
    | bool b => simp [h]
    | int n => simp [h]
    | list xs => simp [h]
    | dict m => simp [h]

theorem normField_dget_ne (d : PyDict) {k' k : String} (h : k' ≠ k) :
    dget (normField d k') k = dget d k := by
  unfold normField
  cases hv : dget d k' with
  | none => simp [dget_dset_ne _ _ h]
  | some v =>
    cases v with
    | str s =>
      simp only
      cases hp : parseLiteral (pyStrip s) with
      | none => by_cases hs : pyStrip s = "" <;> simp [hp, hs, dget_dset_ne _ _ h]
      | some p =>
        cases p <;> by_cases hs : pyStrip s = "" <;> simp [hp, hs, dget_dset_ne _ _ h]
    | none => simp [dget_dset_ne _ _ h]
    | bool b => simp
    | int n => simp
    | list xs => simp
    | dict m => simp

theorem normValue_good (o : Option PyVal) :
    ∃ v, normValue o = some v ∧ isStrOrNone v = false := by
  unfold normValue
  cases o with
  | none => exact ⟨_, rfl, rfl⟩
  | some v =>
    cases v with
    | str s =>
      dsimp only
      split
      · exact ⟨_, rfl, rfl⟩
      · exact ⟨_, rfl, rfl⟩
      · split
        · exact ⟨_, rfl, rfl⟩
        · exact ⟨_, rfl, rfl⟩
    | none => exact ⟨_, rfl, rfl⟩
    | bool b => exact ⟨_, rfl, rfl⟩
    | int n => exact ⟨_, rfl, rfl⟩
    | list xs => exact ⟨_, rfl, rfl⟩
    | dict m => exact ⟨_, rfl, rfl⟩

theorem goodAt_normField (d : PyDict) (k : String) : goodAt (normField d k) k := by
  unfold goodAt
  rw [normField_dget_self]
  exact normValue_good _

theorem goodAt_normField_mono {d : PyDict} {k0 : String} (k : String)
    (h : goodAt d k0) : goodAt (normField d k) k0 := by
  by_cases hk : k = k0
  · subst hk; exact goodAt_normField d k
  · obtain ⟨v, hv, hns⟩ := h
    exact ⟨v, by rw [normField_dget_ne d hk, hv], hns⟩

theorem goodAt_foldl {d : PyDict} {k0 : String} (ks : List String)
    (h : goodAt d k0) : goodAt (List.foldl normField d ks) k0 := by
  induction ks generalizing d with
  | nil => exact h
  | cons k t ih => exact ih (goodAt_normField_mono k h)

theorem goodAt_foldl_of_mem {d : PyDict} {k : String} {ks : List String}
    (h : k ∈ ks) : goodAt (List.foldl normField d ks) k := by
  induction ks generalizing d with
  | nil => cases h
  | cons k' t ih =>
    rcases List.mem_cons.mp h with h1 | h1
    · subst h1
      exact goodAt_foldl t (goodAt_normField d k)
    · exact ih h1

theorem normField_of_goodAt {d : PyDict} {k : String} (h : goodAt d k) :
    normField d k = d := by
  obtain ⟨v, hv, hns⟩ := h
  unfold normField
  rw [hv]
  cases v with
  | str s => simp [isStrOrNone] at hns
  | none => simp [isStrOrNone] at hns
  | bool b => rfl
  | int n => rfl
  | list xs => rfl
  | dict m => rfl

theorem foldl_normField_of_goodAt {d : PyDict} {ks : List String}
    (h : ∀ k ∈ ks, goodAt d k) : List.foldl normField d ks = d := by
  induction ks with
  | nil => rfl
  | cons k t ih =>
    have hk := normField_of_goodAt (h k (List.mem_cons_self k t))
    simp only [List.foldl_cons, hk]
    exact ih (fun k' hk' => h k' (List.mem_cons_of_mem _ hk'))

theorem dmem_of_goodAt {d : PyDict} {k : String} (h : goodAt d k) :
    dmem d k = true := by
  obtain ⟨v, hv, _⟩ := h
  simp [dmem, hv]

/-- After the list-field loop, `tl_dr` is always present, so the
`summary`→`tl_dr` alias branch of `normalize_analysis` never fires. -/
theorem normalize_analysis_dict (d : PyDict) :
    normalize_analysis (PyVal.dict d) = PyVal.dict (List.foldl normField d list_fields) := by
  unfold normalize_analysis
  have htl : dmem (List.foldl normField d list_fields) "tl_dr" = true :=
    dmem_of_goodAt (goodAt_foldl_of_mem (by simp [list_fields]))
  simp [htl]

theorem foldl_normField_dget_not_mem {d : PyDict} {k : String} {ks : List String}
    (h : k ∉ ks) : dget (List.foldl normField d ks) k = dget d k := by
  induction ks generalizing d with
  | nil => rfl
  | cons k' t ih =>
    have hne : k' ≠ k := fun he => h (he ▸ List.mem_cons_self k' t)
    have hnt : k ∉ t := fun hm => h (List.mem_cons_of_mem _ hm)
    rw [List.foldl_cons, ih hnt, normField_dget_ne d hne]

theorem foldl_normField_dget_of_mem {d : PyDict} {k : String} {ks : List String}
    (h : k ∈ ks) (hnd : ks.Nodup) :
    dget (List.foldl normField d ks) k = normValue (dget d k) := by
  induction ks generalizing d with
  | nil => cases h
  | cons k' t ih =>
    rcases List.mem_cons.mp h with h1 | h1
    · subst h1
      have hkt : k ∉ t := (List.nodup_cons.mp hnd).1
      rw [List.foldl_cons, foldl_normField_dget_not_mem hkt, normField_dget_self]
    · have hne : k' ≠ k := by
        rintro rfl
        exact (List.nodup_cons.mp hnd).1 h1
      rw [List.foldl_cons, ih h1 (List.nodup_cons.mp hnd).2, normField_dget_ne d hne]

/-- Reading a field of a `PyVal` that is a dict. -/
def pyDictGet : PyVal → String → Option PyVal
  | PyVal.dict d, k => dget d k
  | _, _ => Option.none

/-- The input shapes for which a list field is guaranteed to come out as a
list: absent, `None`, already a list, or a string that does not parse to a
JSON/Python dict. -/
def listOkInput : Option PyVal → Prop
  | Option.none => True
  | some PyVal.none => True
  | some (PyVal.list _) => True
  | some (PyVal.str s) => ∀ m, parseLiteral (pyStrip s) ≠ some (PyVal.dict m)
  | some _ => False

/-- C5. `normalize_analysis` is idempotent on every input, including
malformed and partial payloads: after one pass every field of `list_fields`
is present and holds no string and no `None`, so the loop of a second pass
rewrites nothing, and the legacy-alias branch never fires on either pass
because the loop has already inserted `tl_dr`. -/
theorem claim_C5_normalize_analysis_idempotent (x : PyVal) :
    normalize_analysis (normalize_analysis x) = normalize_analysis x := by
  cases x with
  | dict d =>
    rw [normalize_analysis_dict d, normalize_analysis_dict]
    have hgood : ∀ k ∈ list_fields, goodAt (List.foldl normField d list_fields) k :=
      fun _ hk => goodAt_foldl_of_mem hk
    rw [foldl_normField_of_goodAt hgood]
  | none => rfl
  | bool b => rfl
  | int n => rfl
  | str s => rfl
  | list xs => rfl

/-- C4 (amended). For each field of the code's `list_fields` set —
`full_summary_bullets`, `people_mentioned`, `prevention_strategies`,
`discovery_questions`, `organizations_involved`, `tl_dr` — the field is
present after `normalize_analysis` and holds a list, provided its upstream
value was absent, `None`, already a list, or a string that does not parse to
a JSON/Python dict.  (A string parsing to a dict is stored as that dict, and
the fields `allegations`, `current_situation`, `next_steps` named by the
original claim are not normalized at all — see the counterexample.) -/
theorem claim_C4_list_fields_are_lists (d : PyDict) (k : String)
    (hk : k ∈ list_fields) (hin : listOkInput (dget d k)) :
    ∃ d', normalize_analysis (PyVal.dict d) = PyVal.dict d' ∧
      ∃ xs, dget d' k = some (PyVal.list xs) := by
  refine ⟨List.foldl normField d list_fields, normalize_analysis_dict d, ?_⟩
  have hnd : list_fields.Nodup := by decide
  rw [foldl_normField_dget_of_mem hk hnd]
  unfold listOkInput at hin
  cases hv : dget d k with
  | none => exact ⟨[], rfl⟩
  | some v =>
    rw [hv] at hin
    cases v with
    | none => exact ⟨[], rfl⟩
    | list xs => exact ⟨xs, rfl⟩
    | str s =>
      unfold normValue
      dsimp only
      split
      · exact ⟨_, rfl⟩
      · rename_i m hm
        exact absurd hm (hin m)
      · split
        · exact ⟨_, rfl⟩
        · exact ⟨_, rfl⟩
    | bool b => cases hin
    | int n => cases hin
    | dict m => cases hin

/-- Witness for C4: a string-valued `people_mentioned` comes out as a
one-element list. -/
theorem claim_C4_witness :
    ("people_mentioned" ∈ list_fields ∧
        listOkInput (dget [("people_mentioned", PyVal.str "alice")] "people_mentioned")) ∧
      ∃ d', normalize_analysis (PyVal.dict [("people_mentioned", PyVal.str "alice")]) =
          PyVal.dict d' ∧ ∃ xs, dget d' "people_mentioned" = some (PyVal.list xs) :=
  ⟨⟨by decide, fun m h => by
      rw [show parseLiteral (pyStrip "alice") = Option.none from rfl] at h
      exact Option.noConfusion h⟩,
    claim_C4_list_fields_are_lists _ _ (by decide) (fun m h => by
      rw [show parseLiteral (pyStrip "alice") = Option.none from rfl] at h
      exact Option.noConfusion h)⟩

/-- Counterexample to C4 as stated: `allegations` (named by the claim as a
list-typed field) is left as a plain string by `normalize_analysis`, and a
JSON-object string in `people_mentioned` becomes a dict, not a list. -/
theorem claim_C4_counterexample :
    (∃ v, pyDictGet (normalize_analysis (PyVal.dict
          [("allegations", PyVal.str "x"),
           ("people_mentioned", PyVal.str "\x7b\"a\": 1\x7d")])) "allegations" = some v ∧
        ∀ xs, v ≠ PyVal.list xs) ∧
      ∃ v, pyDictGet (normalize_analysis (PyVal.dict
          [("allegations", PyVal.str "x"),
           ("people_mentioned", PyVal.str "\x7b\"a\": 1\x7d")])) "people_mentioned" = some v ∧
        ∀ xs, v ≠ PyVal.list xs :=
  ⟨⟨PyVal.str "x", rfl, fun _ h => PyVal.noConfusion h⟩,
    ⟨PyVal.dict [("a", PyVal.int 1)], rfl, fun _ h => PyVal.noConfusion h⟩⟩

/-- C6 (code bug): the legacy `summary`→`tl_dr` alias never applies.
Because `tl_dr` is itself in `list_fields`, the loop inserts `tl_dr = []`
whenever the key is absent — before the alias check at src/utils.py line 37
runs — so `normalize_analysis({"summary": "S"})["tl_dr"]` is `[]`, not
`"S"`; and a present string `tl_dr = "T"` is rewritten to `["T"]`, not kept
as `"T"`. -/
theorem claim_C6_alias_dead :
    pyDictGet (normalize_analysis (PyVal.dict [("summary", PyVal.str "S")])) "tl_dr" =
        some (PyVal.list []) ∧
      pyDictGet (normalize_analysis (PyVal.dict
          [("tl_dr", PyVal.str "T"), ("summary", PyVal.str "S")])) "tl_dr" =
        some (PyVal.list [PyVal.str "T"]) ∧
      (∀ xs, some (PyVal.list xs) ≠ some (PyVal.str "S")) ∧
      ∀ xs, some (PyVal.list xs) ≠ some (PyVal.str "T") :=
  ⟨rfl, rfl, fun _ h => PyVal.noConfusion (Option.some.inj h),
    fun _ h => PyVal.noConfusion (Option.some.inj h)⟩

/-! ## C7 — URL normalizer -/

/-- `rstrip('/')` removes ALL trailing slashes: appending one more `'/'`
never changes the result. -/
theorem rstripSlashList_append_slash (l : List Char) :
    rstripSlashList (l ++ ['/']) = rstripSlashList l := by
  unfold rstripSlashList
  rw [List.reverse_append]
  rfl

/-- Counterexample to C7 as stated: for a URL ending in two slashes the
claim predicts that one trailing slash is kept, but
`u.strip().rstrip('/')` removes both. -/
theorem claim_C7_counterexample :
    normalize_url (some "https://x.com/a//") = "https://x.com/a" ∧
      "https://x.com/a" ≠ "https://x.com/a/" := by
  exact ⟨rfl, by decide⟩

/-- C7 (amended). The URL normalizer trims surrounding whitespace and strips
ALL trailing `'/'` characters (not exactly one): the claim's concrete
equations hold, and stripping is invariant under appending a further
trailing slash, so a URL ending in two slashes loses both. -/
theorem claim_C7_normalize_url :
    normalize_url (some "https://x.com/a/ ") = "https://x.com/a" ∧
      normalize_url (some "https://x.com/a") = "https://x.com/a" ∧
      normalize_url (some "") = "" ∧
      normalize_url Option.none = "" ∧
      normalize_url (some "https://x.com/a//") = "https://x.com/a" ∧
      ∀ l : List Char, rstripSlashList (l ++ ['/']) = rstripSlashList l := by
  exact ⟨rfl, rfl, rfl, rfl, rfl, rstripSlashList_append_slash⟩

/-! ## Raw-url counting lemmas for the ingestion cycle -/

/-- The predicate counted by `countUrl`. -/
def urlIs (a : PyDict) (u : String) : Bool :=
  match dget a "url" with
  | some (PyVal.str s) => s == u
  | _ => false

theorem countUrl_eq_filter (arts : List PyDict) (u : String) :
    countUrl arts u = (arts.filter (fun a => urlIs a u)).length := rfl

theorem countUrl_nil (u : String) : countUrl [] u = 0 := rfl

theorem countUrl_cons (a : PyDict) (t : List PyDict) (u : String) :
    countUrl (a :: t) u = (if urlIs a u then 1 else 0) + countUrl t u := by
  rw [countUrl_eq_filter, countUrl_eq_filter]
  by_cases h : urlIs a u <;> simp [List.filter_cons, h, Nat.add_comm]

theorem countUrl_append (l1 l2 : List PyDict) (u : String) :
    countUrl (l1 ++ l2) u = countUrl l1 u + countUrl l2 u := by
  rw [countUrl_eq_filter, countUrl_eq_filter, countUrl_eq_filter,
    List.filter_append, List.length_append]

theorem urlIs_of_dget_eq {a b : PyDict} (u : String)
    (h : dget a "url" = dget b "url") : urlIs a u = urlIs b u := by
  unfold urlIs
  rw [h]

theorem countUrl_updateFirst (p : PyDict → Bool) (f : PyDict → PyDict)
    (hf : ∀ a, dget (f a) "url" = dget a "url") (l : List PyDict) (u : String) :
    countUrl (updateFirst p f l) u = countUrl l u := by
  induction l with
  | nil => rfl
  | cons a t ih =>
    unfold updateFirst
    by_cases hp : p a
    · simp only [hp, if_true]
      rw [countUrl_cons, countUrl_cons, urlIs_of_dget_eq u (hf a)]
    · simp only [hp, Bool.false_eq_true, if_false]
      rw [countUrl_cons, countUrl_cons, ih]

theorem dget_applyUpdates_ne (ups : PyDict) (a : PyDict) (k : String)
    (h : ∀ kv ∈ ups, kv.1 ≠ k) : dget (applyUpdates a ups) k = dget a k := by
  induction ups generalizing a with
  | nil => rfl
  | cons kv t ih =>
    unfold applyUpdates
    rw [List.foldl_cons]
    have h1 : kv.1 ≠ k := h kv (List.mem_cons_self kv t)
    have h2 : ∀ kv' ∈ t, kv'.1 ≠ k := fun kv' hm => h kv' (List.mem_cons_of_mem _ hm)
    rw [show List.foldl (fun acc kv => dset acc kv.1 kv.2) (dset a kv.1 kv.2) t =
        applyUpdates (dset a kv.1 kv.2) t from rfl, ih _ h2, dget_dset_ne _ _ h1]

theorem countUrl_update_article (st : DMState) (iid : String) (ups : PyDict)
    (h : ∀ kv ∈ ups, kv.1 ≠ "url") (u : String) :
    countUrl (update_article st iid ups).articles u = countUrl st.articles u := by
  unfold update_article
  exact countUrl_updateFirst _ _ (fun a => dget_applyUpdates_ne ups a "url" h) _ _

theorem countUrl_delete_article_soft (st : DMState) (iid : String) (u : String) :
    countUrl (delete_article st iid false).articles u = countUrl st.articles u := by
  unfold delete_article
  simp only [Bool.false_eq_true, if_false]
  exact countUrl_updateFirst _ _
    (fun a => dget_dset_ne a _ (by decide)) _ _

/-- The placeholder record built and prepared in one loop iteration carries
the raw candidate url. -/
theorem dget_prepared_placeholder (url iid ts : String) :
    dget (prepare_article
      [("url", PyVal.str url), ("status", PyVal.str "In Process"),
       ("article_title", PyVal.str "Analyzing..."), ("added_at", PyVal.str ts),
       ("source", PyVal.str "email")] iid ts) "url" = some (PyVal.str url) := rfl

theorem countUrl_processOne (st : DMState) (url iid : String) (env : ItemEnv)
    (api : Bool) (u : String) :
    countUrl (processOne st url iid env api).articles u =
      countUrl st.articles u + (if url = u then 1 else 0) := by
  have hbase : ∀ st' : DMState, st' = save_article st
      [("url", PyVal.str url), ("status", PyVal.str "In Process"),
       ("article_title", PyVal.str "Analyzing..."), ("added_at", PyVal.str env.addedAt),
       ("source", PyVal.str "email")] iid env.addedAt →
      countUrl st'.articles u = countUrl st.articles u + (if url = u then 1 else 0) := by
    rintro st' rfl
    unfold save_article
    rw [countUrl_append, countUrl_cons, countUrl_nil]
    have : urlIs (prepare_article
        [("url", PyVal.str url), ("status", PyVal.str "In Process"),
         ("article_title", PyVal.str "Analyzing..."), ("added_at", PyVal.str env.addedAt),
         ("source", PyVal.str "email")] iid env.addedAt) u = (url == u) := by
      unfold urlIs
      rw [dget_prepared_placeholder]
    rw [this]
    by_cases h : url = u
    · simp [h]
    · simp [h]
  unfold processOne
  dsimp only
  split
  · rw [countUrl_delete_article_soft, hbase _ rfl]
  split
  · rw [countUrl_update_article _ _ _ (by simp) u, hbase _ rfl]
  split
  · -- apiKey branch
    split
    · rw [countUrl_delete_article_soft, hbase _ rfl]
    split
    · rw [countUrl_update_article _ _ _ (by simp) u, hbase _ rfl]
    split
    · rw [countUrl_update_article _ _ _ (by simp) u, hbase _ rfl]
    split
    · -- normalized dict
      split
      · rw [countUrl_delete_article_soft]
        show countUrl (mark_url_deleted _ url).articles u = _
        rw [show (mark_url_deleted (save_article st _ iid env.addedAt) url).articles =
            (save_article st _ iid env.addedAt).articles from rfl, hbase _ rfl]
      · rw [countUrl_update_article _ _ _ (by simp [analysisUpdates]) u, hbase _ rfl]
    · rw [countUrl_update_article _ _ _ (by simp) u, hbase _ rfl]
  · rw [countUrl_update_article _ _ _ (by simp) u, hbase _ rfl]

theorem countUrl_runItems_le (ls : List String) (st : DMState) (ids : List String)
    (env : String → ItemEnv) (api : Bool) (u : String) :
    countUrl (runItems st ids env api ls).articles u ≤
      countUrl st.articles u + List.count u ls := by
  induction ls generalizing st ids with
  | nil => exact Nat.le_add_right _ _
  | cons url rest ih =>
    unfold runItems
    have hcnt : List.count u rest ≤ List.count u (url :: rest) := by
      simp [List.count_cons]
    by_cases hf : hasFavicon url
    · simp only [hf, if_true]
      exact le_trans (ih st ids) (Nat.add_le_add_left hcnt _)
    · simp only [hf, Bool.false_eq_true, if_false]
      cases ids with
      | nil => exact Nat.le_add_right _ _
      | cons iid ids' =>
        refine le_trans (ih _ ids') ?_
        rw [countUrl_processOne]
        have : (if url = u then 1 else 0) + List.count u rest ≤ List.count u (url :: rest) := by
          by_cases hx : url = u <;> simp [List.count_cons, hx, Nat.add_comm]
        calc countUrl st.articles u + (if url = u then 1 else 0) + List.count u rest
            = countUrl st.articles u + ((if url = u then 1 else 0) + List.count u rest) := by
              rw [Nat.add_assoc]
          _ ≤ countUrl st.articles u + List.count u (url :: rest) := Nat.add_le_add_left this _

theorem countUrl_runItems_ge (ls : List String) (st : DMState) (ids : List String)
    (env : String → ItemEnv) (api : Bool) (u : String) :
    countUrl st.articles u ≤ countUrl (runItems st ids env api ls).articles u := by
  induction ls generalizing st ids with
  | nil => exact le_refl _
  | cons url rest ih =>
    unfold runItems
    by_cases hf : hasFavicon url
    · simp only [hf, if_true]
      exact ih st ids
    · simp only [hf, Bool.false_eq_true, if_false]
      cases ids with
      | nil => exact le_refl _
      | cons iid ids' =>
        refine le_trans ?_ (ih _ ids')
        rw [countUrl_processOne]
        exact Nat.le_add_right _ _

theorem countUrl_emailCycle_le (st : DMState) (links ids : List String)
    (env : String → ItemEnv) (api : Bool) (u : String) :
    countUrl (emailCycle st links ids env api).articles u ≤
      countUrl st.articles u + List.count u links := by
  unfold emailCycle
  cases hdu : deletedUrlsOf st.prefs with
  | none => exact Nat.le_add_right _ _
  | some dels =>
    dsimp only
    split
    · exact Nat.le_add_right _ _
    · refine le_trans (countUrl_runItems_le _ _ _ _ _ _) (Nat.add_le_add_left ?_ _)
      exact (List.filter_sublist _).count_le u

/-- If a candidate is blocked — the raw existing-url set or the raw
blacklist contains it — the cycle leaves the number of records with that
raw url unchanged. -/
theorem countUrl_emailCycle_blocked (st : DMState) (links ids : List String)
    (env : String → ItemEnv) (api : Bool) (u : String)
    (hblock : containsURL st.articles u = true ∨
      ∃ dels, deletedUrlsOf st.prefs = some dels ∧
        dels.any (fun x => pyAtomEq x (PyVal.str u)) = true) :
    countUrl (emailCycle st links ids env api).articles u = countUrl st.articles u := by
  unfold emailCycle
  cases hdu : deletedUrlsOf st.prefs with
  | none => rfl
  | some dels =>
    dsimp only
    split
    · rfl
    · refine Nat.le_antisymm ?_ (countUrl_runItems_ge _ _ _ _ _ _)
      have hcount : List.count u (links.filter (fun l =>
          !containsURL st.articles l && !(dels.any (fun x => pyAtomEq x (PyVal.str l))))) = 0 := by
        rw [List.count_eq_zero]
        intro hmem
        have hp := (List.mem_filter.mp hmem).2
        rcases hblock with hb | ⟨dels', hdu', hb⟩
        · rw [hb] at hp
          simp at hp
        · rw [hdu'] at hdu
          cases hdu
          rw [hb] at hp
          simp at hp
      have := countUrl_runItems_le (links.filter (fun l =>
          !containsURL st.articles l && !(dels.any (fun x => pyAtomEq x (PyVal.str l)))))
        st ids env api u
      rw [hcount] at this
      exact this

theorem urlIs_eq_true_iff (a : PyDict) (u : String) :
    urlIs a u = true ↔ dget a "url" = some (PyVal.str u) := by
  unfold urlIs
  cases h : dget a "url" with
  | none => simp
  | some v =>
    cases v with
    | str s => simp [beq_iff_eq]
    | none => simp
    | bool b => simp
    | int n => simp
    | list xs => simp
    | dict m => simp

theorem containsURL_of_countUrl_pos (arts : List PyDict) (u : String)
    (hu : u ≠ "") (h : 0 < countUrl arts u) : containsURL arts u = true := by
  rw [countUrl_eq_filter, List.length_pos] at h
  obtain ⟨a, ha⟩ := List.exists_mem_of_ne_nil _ h
  have hmem := List.mem_filter.mp ha
  have hurl := (urlIs_eq_true_iff a u).mp hmem.2
  unfold containsURL
  rw [List.any_eq_true]
  refine ⟨a, hmem.1, ?_⟩
  rw [hurl]
  simp [pyTruthy, pyAtomEq, hu]

theorem countUrl_get_active_le (st : DMState) (u : String) :
    countUrl (get_active_articles st) u ≤ countUrl st.articles u := by
  rw [countUrl_eq_filter, countUrl_eq_filter]
  exact ((List.filter_sublist _).filter _).length_le

/-! ## C1 — idempotent re-ingestion -/

/-- Counterexample to C1 as stated: the email cycle dedups on RAW urls
(src/app.py lines 330-331 compare `l` against un-normalized sets), so two
candidate links that differ only by a trailing slash both survive the filter
and produce two active records with the same normalized URL — even after
running the cycle a second time with the same connector output. -/
theorem claim_C1_counterexample :
    ((get_active_articles
        (emailCycle
          (emailCycle ⟨[], []⟩ ["https://x.com/a", "https://x.com/a/"] ["i1", "i2"]
            (fun _ => ⟨"some text", false, "", false, "t0"⟩) false)
          ["https://x.com/a", "https://x.com/a/"] ["i3", "i4"]
          (fun _ => ⟨"some text", false, "", false, "t0"⟩) false)).filter
      (fun a =>
        match dget a "url" with
        | some (PyVal.str s) => normalize_url_str s == "https://x.com/a"
        | _ => false)).length = 2 ∧ (2 : Nat) ≠ 1 := ⟨rfl, by decide⟩

/-- C1 (amended).  Dedup is by RAW url string: if the store holds no record
with raw url `u` (`u` nonempty, as every connector link starts with
`"http"`) and the connector output is duplicate-free, then running the email
cycle twice with that output leaves at most one stored record — hence at
most one active record — whose RAW url is `u`.  Trailing-slash or
whitespace variants of `u` count as different raw urls and can each
contribute their own record. -/
theorem claim_C1_raw_dedup (st : DMState) (links ids1 ids2 : List String)
    (env1 env2 : String → ItemEnv) (api1 api2 : Bool) (u : String)
    (hnd : links.Nodup) (hu : u ≠ "") (h0 : countUrl st.articles u = 0) :
    countUrl (emailCycle (emailCycle st links ids1 env1 api1) links ids2 env2 api2).articles u ≤ 1 ∧
      countUrl (get_active_articles
        (emailCycle (emailCycle st links ids1 env1 api1) links ids2 env2 api2)) u ≤ 1 := by
  have hcnt1 : List.count u links ≤ 1 := List.nodup_iff_count_le_one.mp hnd u
  have h1 : countUrl (emailCycle st links ids1 env1 api1).articles u ≤ 1 := by
    have := countUrl_emailCycle_le st links ids1 env1 api1 u
    rw [h0] at this
    exact le_trans this (by simpa using hcnt1)
  have h2 : countUrl (emailCycle (emailCycle st links ids1 env1 api1) links ids2 env2 api2).articles u ≤ 1 := by
    rcases Nat.eq_zero_or_pos (countUrl (emailCycle st links ids1 env1 api1).articles u) with hz | hpos
    · have := countUrl_emailCycle_le (emailCycle st links ids1 env1 api1) links ids2 env2 api2 u
      rw [hz] at this
      exact le_trans this (by simpa using hcnt1)
    · rw [countUrl_emailCycle_blocked _ _ _ _ _ _
        (Or.inl (containsURL_of_countUrl_pos _ _ hu hpos))]
      exact h1
  exact ⟨h2, le_trans (countUrl_get_active_le _ _) h2⟩

/-- Witness for C1 (amended) at a concrete input. -/
theorem claim_C1_raw_dedup_witness :
    (["https://w.com/p"].Nodup ∧ "https://w.com/p" ≠ "" ∧
        countUrl (DMState.mk [] []).articles "https://w.com/p" = 0) ∧
      countUrl (emailCycle (emailCycle ⟨[], []⟩ ["https://w.com/p"] ["i1"]
          (fun _ => ⟨"text", false, "", false, "t0"⟩) false) ["https://w.com/p"] ["i2"]
          (fun _ => ⟨"text", false, "", false, "t0"⟩) false).articles "https://w.com/p" ≤ 1 :=
  ⟨⟨by decide, by decide, rfl⟩,
    (claim_C1_raw_dedup ⟨[], []⟩ ["https://w.com/p"] ["i1"] ["i2"]
      (fun _ => ⟨"text", false, "", false, "t0"⟩) (fun _ => ⟨"text", false, "", false, "t0"⟩)
      false false "https://w.com/p" (by decide) (by decide) rfl).1⟩

/-! ## C10 — soft-deleted records still block raw re-ingestion -/

/-- C10.  The dedup set of the email cycle is built from
`dm.get_all_articles()`, which includes soft-deleted records: if some stored
record has status `"Deleted"` and raw url `u` (nonempty, as every connector
link is), then an email cycle creates no new record with raw url `u` — the
count of such records is unchanged — even when `u` is absent from the
`deleted_urls` blacklist. -/
theorem claim_C10_soft_deleted_blocks (st : DMState) (links ids : List String)
    (env : String → ItemEnv) (api : Bool) (u : String)
    (hdel : ∃ a ∈ st.articles, dget a "status" = some (PyVal.str "Deleted") ∧
      dget a "url" = some (PyVal.str u))
    (hu : u ≠ "") :
    countUrl (emailCycle st links ids env api).articles u = countUrl st.articles u := by
  obtain ⟨a, ha, _, hurl⟩ := hdel
  refine countUrl_emailCycle_blocked _ _ _ _ _ _ (Or.inl ?_)
  unfold containsURL
  rw [List.any_eq_true]
  refine ⟨a, ha, ?_⟩
  rw [hurl]
  simp [pyTruthy, pyAtomEq, hu]

/-- Witness for C10 at a concrete input: a soft-deleted record for
`https://w.com/p` blocks re-ingestion of the same raw url. -/
theorem claim_C10_witness :
    ((∃ a ∈ [[("id", PyVal.str "1"), ("url", PyVal.str "https://w.com/p"),
          ("status", PyVal.str "Deleted")]],
        dget a "status" = some (PyVal.str "Deleted") ∧
          dget a "url" = some (PyVal.str "https://w.com/p")) ∧
        "https://w.com/p" ≠ "") ∧
      countUrl (emailCycle
          ⟨[[("id", PyVal.str "1"), ("url", PyVal.str "https://w.com/p"),
            ("status", PyVal.str "Deleted")]], []⟩
          ["https://w.com/p"] ["i1"] (fun _ => ⟨"text", false, "", false, "t0"⟩)
          false).articles "https://w.com/p" =
        countUrl [[("id", PyVal.str "1"), ("url", PyVal.str "https://w.com/p"),
          ("status", PyVal.str "Deleted")]] "https://w.com/p" :=
  ⟨⟨⟨_, List.mem_singleton.mpr rfl, rfl, rfl⟩, by decide⟩,
    claim_C10_soft_deleted_blocks
      ⟨[[("id", PyVal.str "1"), ("url", PyVal.str "https://w.com/p"),
        ("status", PyVal.str "Deleted")]], []⟩
      ["https://w.com/p"] ["i1"] (fun _ => ⟨"text", false, "", false, "t0"⟩) false
      "https://w.com/p" ⟨_, List.mem_singleton.mpr rfl, rfl, rfl⟩ (by decide)⟩

/-! ## C2 — purge and blacklist permanence -/

theorem pyAtomEq_str_right {x : PyVal} {u : String}
    (h : pyAtomEq x (PyVal.str u) = true) : x = PyVal.str u := by
  cases x <;> simp_all [pyAtomEq]

/-- Counterexample to C2 as stated: purging a record whose url carries a
trailing slash stores the RAW url in `deleted_urls` — `Normalize(u)` is NOT
a member — and a later email cycle happily ingests the normalized variant,
creating an active record whose normalized URL equals `Normalize(u)`. -/
theorem claim_C2_counterexample :
    normalize_url (some "https://x.com/a/") = "https://x.com/a" ∧
      deletedUrlsOf (purge_article
          ⟨[[("id", PyVal.str "1"), ("url", PyVal.str "https://x.com/a/")]], []⟩ "1").prefs =
        some [PyVal.str "https://x.com/a/"] ∧
      PyVal.str "https://x.com/a" ∉ [PyVal.str "https://x.com/a/"] ∧
      ((get_active_articles
          (emailCycle
            (purge_article
              ⟨[[("id", PyVal.str "1"), ("url", PyVal.str "https://x.com/a/")]], []⟩ "1")
            ["https://x.com/a"] ["i1"] (fun _ => ⟨"text", false, "", false, "t0"⟩)
            false)).filter
        (fun a =>
          match dget a "url" with
          | some (PyVal.str s) => normalize_url_str s == "https://x.com/a"
          | _ => false)).length = 1 := by
  refine ⟨rfl, rfl, ?_, rfl⟩
  intro h
  rw [List.mem_singleton] at h
  have := PyVal.str.inj h
  exact absurd this (by decide)

/-- C2 (amended).  `purge_article(id)` on a stored record whose `url` field
is the nonempty string `u` removes every record with that id from
`get_all_articles()`, appends the RAW url `u` (not `Normalize(u)`) to the
`deleted_urls` blacklist, and no subsequent email cycle creates a new record
whose RAW url equals `u`.  A variant of `u` differing by a trailing slash or
whitespace is not blocked (see the counterexample). -/
theorem claim_C2_purge_blacklists_raw (st : DMState) (iid u : String) (a0 : PyDict)
    (xs : List PyVal)
    (hfind : st.articles.find? (fun a => idMatches a iid) = some a0)
    (hurl : dget a0 "url" = some (PyVal.str u))
    (hu : u ≠ "")
    (hprefs : deletedUrlsOf st.prefs = some xs) :
    (∀ b ∈ (purge_article st iid).articles, idMatches b iid = false) ∧
      (∃ ys, deletedUrlsOf (purge_article st iid).prefs = some ys ∧ PyVal.str u ∈ ys) ∧
      ∀ links ids env api,
        countUrl (emailCycle (purge_article st iid) links ids env api).articles u =
          countUrl (purge_article st iid).articles u := by
  have hpurge : purge_article st iid =
      { articles := st.articles.filter (fun b => !idMatches b iid),
        prefs := addUrlToDeleted st.prefs (PyVal.str u) } := by
    unfold purge_article
    rw [hfind]
    dsimp only
    rw [hurl]
    simp [pyTruthy, hu]
  have hdel : ∃ ys, deletedUrlsOf (addUrlToDeleted st.prefs (PyVal.str u)) = some ys ∧
      PyVal.str u ∈ ys := by
    unfold addUrlToDeleted
    rw [hprefs, show (!isHashable (PyVal.str u)) = false from rfl]
    simp only [Bool.false_eq_true, if_false]
    cases hmem : xs.any (fun x => pyAtomEq x (PyVal.str u)) with
    | true =>
      simp only [hmem, if_true]
      refine ⟨xs, hprefs, ?_⟩
      obtain ⟨x, hx, hxe⟩ := List.any_eq_true.mp hmem
      exact (pyAtomEq_str_right hxe) ▸ hx
    | false =>
      simp only [hmem, Bool.false_eq_true, if_false]
      refine ⟨xs ++ [PyVal.str u], ?_, List.mem_append_right _ (List.mem_singleton.mpr rfl)⟩
      unfold deletedUrlsOf
      rw [dget_dset_self]
  refine ⟨?_, ?_, ?_⟩
  · intro b hb
    rw [hpurge] at hb
    have := (List.mem_filter.mp hb).2
    simpa using this
  · rw [hpurge]
    exact hdel
  · intro links ids env api
    obtain ⟨ys, hys, hmem⟩ := hdel
    refine countUrl_emailCycle_blocked _ _ _ _ _ _ (Or.inr ⟨ys, ?_, ?_⟩)
    · rw [hpurge]
      exact hys
    · rw [List.any_eq_true]
      exact ⟨PyVal.str u, hmem, by simp [pyAtomEq]⟩

/-- Witness for C2 (amended) at a concrete input. -/
theorem claim_C2_witness :
    ([[("id", PyVal.str "1"), ("url", PyVal.str "https://x.com/a/")]].find?
          (fun a => idMatches a "1") =
        some [("id", PyVal.str "1"), ("url", PyVal.str "https://x.com/a/")] ∧
      dget [("id", PyVal.str "1"), ("url", PyVal.str "https://x.com/a/")] "url" =
        some (PyVal.str "https://x.com/a/") ∧
      "https://x.com/a/" ≠ "" ∧
      deletedUrlsOf (DMState.mk
        [[("id", PyVal.str "1"), ("url", PyVal.str "https://x.com/a/")]] []).prefs = some []) ∧
      ∃ ys, deletedUrlsOf (purge_article
          ⟨[[("id", PyVal.str "1"), ("url", PyVal.str "https://x.com/a/")]], []⟩ "1").prefs =
        some ys ∧ PyVal.str "https://x.com/a/" ∈ ys :=
  ⟨⟨rfl, rfl, by decide, rfl⟩,
    (claim_C2_purge_blacklists_raw
      ⟨[[("id", PyVal.str "1"), ("url", PyVal.str "https://x.com/a/")]], []⟩ "1"
      "https://x.com/a/" [("id", PyVal.str "1"), ("url", PyVal.str "https://x.com/a/")] []
      rfl rfl (by decide) rfl).2.1⟩

/-! ## C3 — per-item timeout handling -/

theorem updateFirst_append_no_match (p : PyDict → Bool) (f : PyDict → PyDict)
    (l : List PyDict) (x : PyDict) (h : ∀ a ∈ l, p a = false) :
    updateFirst p f (l ++ [x]) = l ++ [if p x then f x else x] := by
  induction l with
  | nil =>
    unfold updateFirst
    by_cases hp : p x
    · simp [hp, updateFirst]
    · simp [hp, updateFirst]
  | cons a t ih =>
    have ha : p a = false := h a (List.mem_cons_self a t)
    have ht : ∀ b ∈ t, p b = false := fun b hb => h b (List.mem_cons_of_mem _ hb)
    simp only [List.cons_append]
    unfold updateFirst
    rw [ha]
    simp only [Bool.false_eq_true, if_false]
    rw [ih ht]

/-- The prepared placeholder carries the generated id. -/
theorem dget_prepared_placeholder_id (url iid ts : String) :
    dget (prepare_article
      [("url", PyVal.str url), ("status", PyVal.str "In Process"),
       ("article_title", PyVal.str "Analyzing..."), ("added_at", PyVal.str ts),
       ("source", PyVal.str "email")] iid ts) "id" = some (PyVal.str iid) := rfl

/-- Counterexample to C3 as stated: a candidate that exceeds the 60-second
budget is handed to `dm.delete_article(saved_art["id"])` — the SOFT delete —
so after the cycle one record for that URL remains in the store (hidden from
the active view with status `"Deleted"`), rather than no record at all. -/
theorem claim_C3_counterexample :
    countUrl (emailCycle ⟨[], []⟩ ["https://t.com/x"] ["i1"]
        (fun _ => ⟨"text", true, "", false, "t0"⟩) false).articles "https://t.com/x" = 1 ∧
      (1 : Nat) ≠ 0 ∧
      countUrl (get_active_articles (emailCycle ⟨[], []⟩ ["https://t.com/x"] ["i1"]
        (fun _ => ⟨"text", true, "", false, "t0"⟩) false)) "https://t.com/x" = 0 :=
  ⟨rfl, by decide, rfl⟩

/-- C3 (amended).  A candidate whose cumulative scrape+analyze time exceeds
the 60-second budget has its placeholder SOFT-deleted (`delete_article` with
the default `hard=False`): exactly one record for that URL remains in the
store, with status `"Deleted"` — removed from the active dashboard view, and
in particular not left as an Error-status record — but it is NOT purged from
the store. -/
theorem claim_C3_timeout_soft_deletes (st : DMState) (url iid : String)
    (env : ItemEnv) (api : Bool)
    (hfresh : ∀ a ∈ st.articles, idMatches a iid = false)
    (htime : env.slowScrape = true ∨
      (env.slowScrape = false ∧ pyStartsWith env.scrape "Error" = false ∧
        api = true ∧ env.slowAnalyze = true)) :
    ∃ a, (processOne st url iid env api).articles = st.articles ++ [a] ∧
      dget a "status" = some (PyVal.str "Deleted") ∧
      dget a "url" = some (PyVal.str url) := by
  have hart : idMatches (prepare_article
      [("url", PyVal.str url), ("status", PyVal.str "In Process"),
       ("article_title", PyVal.str "Analyzing..."), ("added_at", PyVal.str env.addedAt),
       ("source", PyVal.str "email")] iid env.addedAt) iid = true := by
    unfold idMatches
    rw [dget_prepared_placeholder_id]
    simp [pyAtomEq]
  have hdel : ∀ st1 : DMState, st1 = save_article st
      [("url", PyVal.str url), ("status", PyVal.str "In Process"),
       ("article_title", PyVal.str "Analyzing..."), ("added_at", PyVal.str env.addedAt),
       ("source", PyVal.str "email")] iid env.addedAt →
      ∃ a, (delete_article st1 iid false).articles = st.articles ++ [a] ∧
        dget a "status" = some (PyVal.str "Deleted") ∧
        dget a "url" = some (PyVal.str url) := by
    rintro st1 rfl
    unfold delete_article save_article
    simp only [Bool.false_eq_true, if_false]
    refine ⟨dset (prepare_article
      [("url", PyVal.str url), ("status", PyVal.str "In Process"),
       ("article_title", PyVal.str "Analyzing..."), ("added_at", PyVal.str env.addedAt),
       ("source", PyVal.str "email")] iid env.addedAt) "status" (PyVal.str "Deleted"), ?_, ?_, ?_⟩
    · rw [updateFirst_append_no_match _ _ _ _ hfresh, hart]
      simp
    · exact dget_dset_self _ _ _
    · rw [dget_dset_ne _ _ (by decide)]
      exact dget_prepared_placeholder url iid env.addedAt
  rcases htime with h1 | ⟨h1, h2, h3, h4⟩
  · unfold processOne
    rw [h1]
    simp only [if_true]
    exact hdel _ rfl
  · unfold processOne
    rw [h1, h2, h3, h4]
    simp only [Bool.false_eq_true, if_false, if_true]
    exact hdel _ rfl

/-- Witness for C3 (amended) at a concrete input: a scrape-stage timeout. -/
theorem claim_C3_witness :
    ((∀ a ∈ ([] : List PyDict), idMatches a "i1" = false) ∧
        (⟨"text", true, "", false, "t0"⟩ : ItemEnv).slowScrape = true) ∧
      ∃ a, (processOne ⟨[], []⟩ "https://t.com/x" "i1" ⟨"text", true, "", false, "t0"⟩
          false).articles = [] ++ [a] ∧
        dget a "status" = some (PyVal.str "Deleted") ∧
        dget a "url" = some (PyVal.str "https://t.com/x") :=
  ⟨⟨fun a ha => absurd ha (List.not_mem_nil a), rfl⟩,
    claim_C3_timeout_soft_deletes ⟨[], []⟩ "https://t.com/x" "i1"
      ⟨"text", true, "", false, "t0"⟩ false
      (fun a ha => absurd ha (List.not_mem_nil a)) (Or.inl rfl)⟩

/-! ## C8 — sheet connector dedup -/

/-- Per-row outcome, duplicate side: the row number that
`get_new_urls` marks `"Duplicate"` in column B, if any. -/
def rowDupMark (existing : List String) (row : List String) (rowNum : Nat) : Option Nat :=
  let url := pyStrip (row.getD 0 "")
  let status := pyStrip (row.getD 1 "")
  if !pyStartsWith url "http" then Option.none
  else if status ≠ "" then Option.none
  else if existing.contains url then some rowNum
  else Option.none

/-- Per-row outcome, new-work side: the `{url, row}` item `get_new_urls`
returns, if any. -/
def rowNewItem (existing : List String) (row : List String) (rowNum : Nat) :
    Option (String × Nat) :=
  let url := pyStrip (row.getD 0 "")
  let status := pyStrip (row.getD 1 "")
  if !pyStartsWith url "http" then Option.none
  else if status ≠ "" then Option.none
  else if existing.contains url then Option.none
  else some (url, rowNum)

theorem scanRows_characterization (existing : List String) (rows : List (List String)) :
    ∀ n, (scanRows existing n rows).1 =
        (List.enumFrom n rows).filterMap (fun p => rowNewItem existing p.2 p.1) ∧
      (scanRows existing n rows).2.1 =
        (List.enumFrom n rows).filterMap (fun p => rowDupMark existing p.2 p.1) := by
  induction rows with
  | nil => intro n; exact ⟨rfl, rfl⟩
  | cons row rest ih =>
    intro n
    have he : List.enumFrom n (row :: rest) = (n, row) :: List.enumFrom (n + 1) rest := rfl
    obtain ⟨ih1, ih2⟩ := ih (n + 1)
    rw [he, List.filterMap_cons, List.filterMap_cons]
    cases h1 : pyStartsWith (pyStrip ((row[0]?).getD "")) "http" with
    | false =>
      constructor
      · simp [scanRows, rowNewItem, h1, ih1]
      · simp [scanRows, rowDupMark, h1, ih2]
    | true =>
      by_cases h2 : pyStrip ((row[1]?).getD "") = ""
      · by_cases h3 : pyStrip ((row[0]?).getD "") ∈ existing
        · constructor
          · simp [scanRows, rowNewItem, h1, h2, h3, ih1]
          · simp [scanRows, rowDupMark, h1, h2, h3, ih2]
        · constructor
          · simp [scanRows, rowNewItem, h1, h2, h3, ih1]
          · simp [scanRows, rowDupMark, h1, h2, h3, ih2]
      · constructor
        · simp [scanRows, rowNewItem, h1, h2, ih1]
        · simp [scanRows, rowDupMark, h1, h2, ih2]

/-- Counterexample to C8 as stated: on the claim's scenario the code marks
BOTH rows 1 and 2 as `"Duplicate"` (the status column of both is empty and
both urls are known) and counts row 3 as a valid url (the `valid_urls`
counter increments before the status check), so `updates = [1, 2]`,
`valid_urls = 3` and `duplicates = 2` — not `[2]`, `2` and `1`. -/
theorem claim_C8_counterexample :
    (get_new_urls [["https://a.com", ""], ["https://a.com", ""], ["https://b.com", "Done"]]
          ["https://a.com"]).updates = [1, 2] ∧
      ([1, 2] : List Nat) ≠ [2] ∧
      (get_new_urls [["https://a.com", ""], ["https://a.com", ""], ["https://b.com", "Done"]]
          ["https://a.com"]).valid_urls = 3 ∧
      (3 : Nat) ≠ 2 ∧
      (get_new_urls [["https://a.com", ""], ["https://a.com", ""], ["https://b.com", "Done"]]
          ["https://a.com"]).duplicates = 2 ∧
      (2 : Nat) ≠ 1 :=
  ⟨rfl, by decide, rfl, by decide, rfl, by decide⟩

/-- C8 (amended).  On the scenario rows with `existing = {"https://a.com"}`,
`get_new_urls` returns no new items, marks rows 1 AND 2 `"Duplicate"`, and
reports `total_rows = 3`, `valid_urls = 3` (every http row counts, processed
or not), `duplicates = 2`, `new = 0`.  In general the claim's last sentence
holds: the marked rows are exactly the valid-url rows with empty status and
a known url, and the returned items are exactly the valid-url rows with
empty status and an unknown url — so a row with non-empty status is never
marked and never returned. -/
theorem claim_C8_sheet_scan :
    get_new_urls [["https://a.com", ""], ["https://a.com", ""], ["https://b.com", "Done"]]
        ["https://a.com"] = ⟨[], [1, 2], 3, 3, 2, 0⟩ ∧
      (∀ rows existing, (get_new_urls rows existing).updates =
        (List.enumFrom 1 rows).filterMap (fun p => rowDupMark existing p.2 p.1)) ∧
      ∀ rows existing, (get_new_urls rows existing).new_items =
        (List.enumFrom 1 rows).filterMap (fun p => rowNewItem existing p.2 p.1) :=
  ⟨rfl,
    fun rows existing => (scanRows_characterization existing rows 1).2,
    fun rows existing => (scanRows_characterization existing rows 1).1⟩

/-! ## C9 — backend attach/merge -/

/-- Counterexample to C9 as stated: `set_backend` filters the remote records
against the `deleted_urls` blacklist (normalized comparison) BEFORE merging,
so with a blacklisted remote url the resulting cache is NOT `remote ++
(locals with ids not in remote)`: here the one remote record is dropped and
the cache comes out empty. -/
theorem claim_C9_counterexample :
    set_backend_cache [] [[("id", PyVal.str "r1"), ("url", PyVal.str "https://x.com/a/")]]
        [("deleted_urls", PyVal.list [PyVal.str "https://x.com/a"])] = [] ∧
      ([[("id", PyVal.str "r1"), ("url", PyVal.str "https://x.com/a/")]] ++
          ([] : List PyDict)) ≠ ([] : List PyDict) :=
  ⟨rfl, fun h => List.noConfusion h⟩

/-- C9 (amended).  With a non-empty remote list, after `set_backend` with
`load=True` the cache consists of the remote records THAT SURVIVE THE
`deleted_urls` BLACKLIST FILTER (normalized-url comparison), in order,
followed by exactly those local records whose id does not appear among the
surviving remote records — so remote is authoritative for every id it
holds after filtering, and no local-only record is lost.  The hypotheses
are the well-typedness conditions under which the Python merge completes
without raising (string blacklist entries, string-or-absent remote urls,
hashable ids); otherwise the exception is caught and the cache is left
unchanged. -/
theorem claim_C9_merge (localArts remote : List PyDict) (prefs : PyDict)
    (dl : List PyVal) (dels : List String) (filtered : List PyDict)
    (hne : remote ≠ [])
    (hdu : deletedUrlsOf prefs = some dl)
    (hbl : blacklistNorm dl = some dels)
    (hfr : filterRemote dels remote = some filtered)
    (hid1 : filtered.all (fun a => (dget a "id").elim true isHashable) = true)
    (hid2 : localArts.all (fun a => (dget a "id").elim true isHashable) = true) :
    set_backend_cache localArts remote prefs =
        filtered ++ localArts.filter (fun la => !(filtered.any (fun ra => idEqPy ra la))) ∧
      (∀ a ∈ filtered, a ∈ set_backend_cache localArts remote prefs) ∧
      ∀ la ∈ localArts, (filtered.any (fun ra => idEqPy ra la)) = false →
        la ∈ set_backend_cache localArts remote prefs := by
  have hmain : set_backend_cache localArts remote prefs =
      filtered ++ localArts.filter (fun la => !(filtered.any (fun ra => idEqPy ra la))) := by
    unfold set_backend_cache
    have hre : remote.isEmpty = false := by
      cases remote with
      | nil => exact absurd rfl hne
      | cons a t => rfl
    rw [hre]
    simp only [Bool.false_eq_true, if_false]
    rw [hdu]
    dsimp only
    rw [hbl]
    dsimp only
    rw [hfr]
    dsimp only
    rw [hid1, hid2]
    simp
  refine ⟨hmain, ?_, ?_⟩
  · intro a ha
    rw [hmain]
    exact List.mem_append_left _ ha
  · intro la hla hany
    rw [hmain]
    refine List.mem_append_right _ (List.mem_filter.mpr ⟨hla, ?_⟩)
    rw [hany]
    rfl

/-- Witness for C9 (amended) at a concrete input: empty blacklist, one
remote record, one local-only record — the cache is remote followed by the
local record. -/
theorem claim_C9_witness :
    (([[("id", PyVal.str "r1"), ("url", PyVal.str "https://r.com")]] : List PyDict) ≠ [] ∧
        deletedUrlsOf [] = some [] ∧
        blacklistNorm [] = some [] ∧
        filterRemote [] [[("id", PyVal.str "r1"), ("url", PyVal.str "https://r.com")]] =
          some [[("id", PyVal.str "r1"), ("url", PyVal.str "https://r.com")]]) ∧
      set_backend_cache [[("id", PyVal.str "l1")]]
          [[("id", PyVal.str "r1"), ("url", PyVal.str "https://r.com")]] [] =
        [[("id", PyVal.str "r1"), ("url", PyVal.str "https://r.com")]] ++
          ([[("id", PyVal.str "l1")]] : List PyDict).filter (fun la =>
            !(([[("id", PyVal.str "r1"), ("url", PyVal.str "https://r.com")]] : List PyDict).any
              (fun ra => idEqPy ra la))) :=
  ⟨⟨fun h => List.noConfusion h, rfl, rfl, rfl⟩,
    (claim_C9_merge [[("id", PyVal.str "l1")]]
      [[("id", PyVal.str "r1"), ("url", PyVal.str "https://r.com")]] [] [] []
      [[("id", PyVal.str "r1"), ("url", PyVal.str "https://r.com")]]
      (fun h => List.noConfusion h) rfl rfl rfl rfl rfl).1⟩
